import Mathlib

/-!
Verification development for the `optrol` car trajectory planner
(`optimal_control/car_planner.py`).

The planner formulates a nonlinear trajectory-optimization problem for a
car-like robot.  `prep_constraints` registers named, bounded constraint
expressions over per-waypoint decision variables; `objective` builds a
path-length proxy; `initial_guess` builds a closed-form seed vector.

We embed the constraint-building layer shallowly: a symbolic constraint
expression becomes a Lean function from a numeric assignment of all
decision variables to a real number.  The constraint registry itself
(`problem.py`) is not part of the sources; where its behaviour matters it
is modelled from the specification (ordered name/expression/bound
registration, optional bounds defaulting to unbounded, duplicate names
rejected).
-/

namespace Optrol

noncomputable section

/-- A pose boundary condition, mirroring `State(x, y, theta)`. -/
structure State where
  x : ℝ
  y : ℝ
  theta : ℝ

/-- A numeric assignment to the 7 scalar decision variables of one waypoint.
Modelled from the spec: a waypoint owns a state vector `X = [x, y, theta, k]`,
a control vector `U = [s, v]` and a scalar duration `t`, declared in that
order by `prep_problem`. -/
structure Wp where
  x : ℝ
  y : ℝ
  theta : ℝ
  k : ℝ
  s : ℝ
  v : ℝ
  t : ℝ

/-- An assignment of numeric values to every waypoint's decision variables.
Only indices `0 .. N-1` are ever read. -/
def Vals : Type := ℕ → Wp

/-- A circular obstacle `(cx, cy, radius, inflation)` as in the obstacle
list consumed by `prep_constraints`. -/
structure Obstacle where
  cx : ℝ
  cy : ℝ
  r : ℝ
  inflation : ℝ

/-- One registry entry.  Modelled from the spec: the registry stores, per
name, an expression together with an optional lower and upper bound
(`none` standing for an infinite bound); `set_constraint(name, expr, lb)`
leaves the upper bound infinite, and `set_equality_constraint(name, expr,
target)` sets `lb = ub = target`.  The expression itself is the shallow
embedding of the symbolic expression registered by `car_planner.py`. -/
structure Constraint where
  name : String
  expr : Vals → ℝ
  lb : Option ℝ
  ub : Option ℝ

/-- Robot capability parameters, queried once by `prep_robot_information`. -/
structure RobotParams where
  minimum_turning_radius : ℝ
  wheel_base : ℝ
  max_linear_velocity : ℝ
  max_acceleration : ℝ
  max_steering_angle : ℝ

/-- The planner's construction-time data: robot parameters and the
formulation parameters `number_of_waypoints`, `granularity`, `t_max`. -/
structure CarPlanner where
  robot : RobotParams
  number_of_waypoints : ℕ
  granularity : ℕ
  t_max : ℝ

/-- `self.k = 1/self.minimum_turning_radius` from `prep_robot_information`. -/
def CarPlanner.k (p : CarPlanner) : ℝ := 1 / p.robot.minimum_turning_radius

/-- `self.v = self.max_linear_velocity*0.4` from `prep_robot_information`. -/
def CarPlanner.v (p : CarPlanner) : ℝ := p.robot.max_linear_velocity * 0.4

/-- The running forward-simulation state `(dk, dx, dy, dth)` of one
multiple-shooting segment. -/
structure SimState where
  k : ℝ
  x : ℝ
  y : ℝ
  th : ℝ

/-- One Euler sub-step of the forward simulation, mirroring the loop body

```
dk += Xi.s*dt
dx += Xi.v*cos(dth)*dt
dy += Xi.v*sin(dth)*dt
dth += dk*Xi.v*dt
```

where the heading update reads the already-updated curvature and the
position updates read the not-yet-updated heading. -/
def eulerSub (st : SimState) (s v dt : ℝ) : SimState :=
  let dk := st.k + s * dt
  let dx := st.x + v * Real.cos st.th * dt
  let dy := st.y + v * Real.sin st.th * dt
  let dth := st.th + dk * v * dt
  ⟨dk, dx, dy, dth⟩

/-- The simulation start of segment `i`: waypoint `i-1`'s declared
`(k, x, y, theta)` (`dx = Xim1.x; dy = Xim1.y; dth = Xim1.theta;
dk = Xim1.k`). -/
def simInit (vals : Vals) (i : ℕ) : SimState :=
  ⟨(vals (i-1)).k, (vals (i-1)).x, (vals (i-1)).y, (vals (i-1)).theta⟩

/-- The sub-step duration `dt = Xi.t*(1/self.granularity)` of segment `i`. -/
def segDt (g : ℕ) (vals : Vals) (i : ℕ) : ℝ := (vals i).t * (1 / (g : ℝ))

/-- The running simulation state of segment `i` after `j` Euler sub-steps,
using waypoint `i`'s controls `(s, v)` held constant. -/
def simAfter (g : ℕ) (vals : Vals) (i : ℕ) : ℕ → SimState
  | 0 => simInit vals i
  | j + 1 => eulerSub (simAfter g vals i j) (vals i).s (vals i).v (segDt g vals i)

/-- The obstacle clearance expression
`power(obstacle[0] - x, 2) + power(obstacle[1] - y, 2) -
 power(obstacle[2]+obstacle[3], 2)` from the `check_obstacle` lambda. -/
def obstacleExpr (o : Obstacle) (x y : ℝ) : ℝ :=
  (o.cx - x) ^ 2 + (o.cy - y) ^ 2 - (o.r + o.inflation) ^ 2

/-- The obstacle constraints registered at sub-step `j` of segment `i`:
for every obstacle (in list order), `check_obs` + obstacle index + `j` + `i`
with the clearance expression at the running simulated point, lower bound
`0`, upper bound infinite. -/
def obstacleConstraints (g : ℕ) (obstacles : List Obstacle) (i j : ℕ) :
    List Constraint :=
  (List.range obstacles.length).map fun o =>
    { name := "check_obs" ++ Nat.repr o ++ Nat.repr j ++ Nat.repr i
      expr := fun vals =>
        obstacleExpr (obstacles.getD o ⟨0, 0, 0, 0⟩)
          (simAfter g vals i (j+1)).x (simAfter g vals i (j+1)).y
      lb := some 0
      ub := none }

/-- The constraints registered by iteration `j` of the sub-step loop of
segment `i` (iteration `j` first advances the running state and then
registers): the running-curvature box `"k"+jdx`, the three unbounded
`intermediate_*` observation entries, and one obstacle constraint per
obstacle. -/
def stepConstraints (p : CarPlanner) (obstacles : List Obstacle) (i j : ℕ) :
    List Constraint :=
  [ { name := "k" ++ Nat.repr j ++ Nat.repr i
      expr := fun vals => (simAfter p.granularity vals i (j+1)).k
      lb := some (-p.k)
      ub := some p.k }
  , { name := "intermediate_x" ++ Nat.repr j ++ Nat.repr i
      expr := fun vals => (simAfter p.granularity vals i (j+1)).x
      lb := none
      ub := none }
  , { name := "intermediate_y" ++ Nat.repr j ++ Nat.repr i
      expr := fun vals => (simAfter p.granularity vals i (j+1)).y
      lb := none
      ub := none }
  , { name := "intermediate_th" ++ Nat.repr j ++ Nat.repr i
      expr := fun vals => (simAfter p.granularity vals i (j+1)).th
      lb := none
      ub := none } ]
  ++ obstacleConstraints p.granularity obstacles i j

/-- All constraints registered for segment `i` (one iteration of the outer
`for i in range(1, self.number_of_waypoints)` loop): velocity box,
curvature box, duration non-negativity, the sub-step loop
`for j in range(self.granularity + 1)`, and the four G2 continuity
equalities. -/
def segmentConstraints (p : CarPlanner) (obstacles : List Obstacle) (i : ℕ) :
    List Constraint :=
  [ { name := "v" ++ Nat.repr i
      expr := fun vals => (vals i).v
      lb := some 0
      ub := some p.v }
  , { name := "k" ++ Nat.repr i
      expr := fun vals => (vals i).k
      lb := some (-p.k)
      ub := some p.k }
  , { name := "t" ++ Nat.repr i
      expr := fun vals => (vals i).t
      lb := some 0
      ub := none } ]
  ++ (List.range (p.granularity + 1)).flatMap (stepConstraints p obstacles i)
  ++ [ { name := "x" ++ Nat.repr i
         expr := fun vals =>
           (vals i).x - (simAfter p.granularity vals i (p.granularity + 1)).x
         lb := some 0
         ub := some 0 }
     , { name := "y" ++ Nat.repr i
         expr := fun vals =>
           (vals i).y - (simAfter p.granularity vals i (p.granularity + 1)).y
         lb := some 0
         ub := some 0 }
     , { name := "theta" ++ Nat.repr i
         expr := fun vals =>
           (vals i).theta - (simAfter p.granularity vals i (p.granularity + 1)).th
         lb := some 0
         ub := some 0 }
     , { name := "k" ++ Nat.repr i
         expr := fun vals =>
           (vals i).k - (simAfter p.granularity vals i (p.granularity + 1)).k
         lb := some 0
         ub := some 0 } ]

/-- The six boundary equality constraints pinning the first waypoint's pose
to the initial state and the last waypoint's pose to the final state. -/
def boundaryConstraints (n : ℕ) (initS finalS : State) : List Constraint :=
  [ { name := "x0", expr := fun vals => (vals 0).x
      lb := some initS.x, ub := some initS.x }
  , { name := "y0", expr := fun vals => (vals 0).y
      lb := some initS.y, ub := some initS.y }
  , { name := "th0", expr := fun vals => (vals 0).theta
      lb := some initS.theta, ub := some initS.theta }
  , { name := "xn", expr := fun vals => (vals (n-1)).x
      lb := some finalS.x, ub := some finalS.x }
  , { name := "yn", expr := fun vals => (vals (n-1)).y
      lb := some finalS.y, ub := some finalS.y }
  , { name := "thn", expr := fun vals => (vals (n-1)).theta
      lb := some finalS.theta, ub := some finalS.theta } ]

/-- The global time budget `time_sum`: the sum of the segment durations
`t_1 .. t_{N-1}`, bounded to `[0, t_max]`. -/
def timeSumConstraint (p : CarPlanner) : Constraint :=
  { name := "time_sum"
    expr := fun vals => ∑ i ∈ Finset.Ico 1 p.number_of_waypoints, (vals i).t
    lb := some 0
    ub := some p.t_max }

/-- The ordered list of all constraints registered by `prep_constraints`:
boundary equalities, then every segment `i = 1 .. N-1` in order, then the
time budget. -/
def prepConstraints (p : CarPlanner) (initS finalS : State)
    (obstacles : List Obstacle) : List Constraint :=
  boundaryConstraints p.number_of_waypoints initS finalS
  ++ (List.range' 1 (p.number_of_waypoints - 1)).flatMap
      (segmentConstraints p obstacles)
  ++ [timeSumConstraint p]

/-- The per-pair distance helper `length(stateA, stateB)` of `objective`,
including its dead heading-delta computation: it returns
`power(dx, 2) + power(dy, 2)` only. -/
def length (stateA stateB : Wp) : ℝ :=
  let dx := stateB.x - stateA.x
  let dy := stateB.y - stateA.y
  let _dth := stateB.theta - stateA.theta
  dx ^ 2 + dy ^ 2

/-- The objective: `sum over i in 1..N-1 of length(waypoints[i],
waypoints[i-1])`. -/
def objective (p : CarPlanner) (vals : Vals) : ℝ :=
  ∑ i ∈ Finset.Ico 1 p.number_of_waypoints, length (vals i) (vals (i-1))

/-- The `sign` function applied to the boundary deltas in `initial_guess`
(`sign(dx)`, `sign(dy)`): `1` for positive, `-1` for negative, `0` at `0`. -/
def sign (r : ℝ) : ℝ := if 0 < r then 1 else if r < 0 then -1 else 0

/-- One pose update of the `initial_guess` walk, mirroring

```
x += sign(dx)*self.v*cos(theta)*dt
y += sign(dy)*self.v*sin(theta)*dt
theta += self.v*k*dt
```

on the running `(x, y, theta)` triple. -/
def guessStep (p : CarPlanner) (dx dy kd dt : ℝ) (st : ℝ × ℝ × ℝ) :
    ℝ × ℝ × ℝ :=
  (st.1 + sign dx * p.v * Real.cos st.2.2 * dt,
   st.2.1 + sign dy * p.v * Real.sin st.2.2 * dt,
   st.2.2 + p.v * kd * dt)

/-- The 7 values appended per loop iteration of `initial_guess`:
`x, y, theta, 0, dt, self.v, k`. -/
def guessRow (p : CarPlanner) (kd dt : ℝ) (st : ℝ × ℝ × ℝ) : List ℝ :=
  [st.1, st.2.1, st.2.2, 0, dt, p.v, kd]

/-- The emission loop of `initial_guess`: each iteration first appends the
current `(x, y, theta)` together with `0, dt, self.v, k`, and then advances
the pose — except that the very first iteration skips the advance
(`if not first`). -/
def guessLoop (p : CarPlanner) (dx dy kd dt : ℝ) :
    ℕ → ℝ × ℝ × ℝ → Bool → List ℝ
  | 0, _, _ => []
  | n + 1, st, first =>
    guessRow p kd dt st
    ++ (if first then guessLoop p dx dy kd dt n st false
        else guessLoop p dx dy kd dt n (guessStep p dx dy kd dt st) false)

/-- The initial-guess vector.  `slope = dy/dx` is a Python float division:
when `dx = 0` it raises `ZeroDivisionError`, modelled here as `none`.
Otherwise the straight branch (`k = 0`, `distance = r`) is taken when
`|slope| < 1e-2` and the arc branch (`k = self.v/r`, `distance = r*pi`)
otherwise, with `r` half the straight-line distance,
`t = distance/self.v` and `dt = t/self.number_of_waypoints`. -/
def initialGuess (p : CarPlanner) (initS finalS : State) : Option (List ℝ) :=
  let dx := finalS.x - initS.x
  let dy := finalS.y - initS.y
  if dx = 0 then none else
  let slope := dy / dx
  let r := Real.sqrt (dx ^ 2 + dy ^ 2) * 0.5
  let kdist := if |slope| < 1e-2 then ((0 : ℝ), r) else (p.v / r, r * Real.pi)
  let t := kdist.2 / p.v
  let dt := t / (p.number_of_waypoints : ℝ)
  some (guessLoop p dx dy kdist.1 dt p.number_of_waypoints
    (initS.x, initS.y, initS.theta) true)

/-- Interpretation of a flat guess vector as an assignment to the decision
variables.  Modelled from the spec: `prep_problem` declares, per waypoint,
the state vector `X = [x, y, theta, k]`, then the control vector
`U = [s, v]`, then the duration `t`, so waypoint `i` occupies positions
`7*i .. 7*i+6` of the flattened decision vector in that component order. -/
def assignOfList (l : List ℝ) : Vals := fun i =>
  ⟨l.getD (7*i) 0, l.getD (7*i+1) 0, l.getD (7*i+2) 0, l.getD (7*i+3) 0,
   l.getD (7*i+4) 0, l.getD (7*i+5) 0, l.getD (7*i+6) 0⟩

/-- A constraint is satisfied at an assignment when the expression's value
respects both optional bounds. -/
def satisfiedAt (c : Constraint) (vals : Vals) : Prop :=
  (∀ r, c.lb = some r → r ≤ c.expr vals) ∧
  (∀ r, c.ub = some r → c.expr vals ≤ r)

end

/-- The names of the constraints registered by iteration `j` of the
sub-step loop of segment `i`, in registration order (name bookkeeping of
`stepConstraints`, kept separately so that name-level facts are decidable). -/
def stepNames (nObs i j : ℕ) : List String :=
  [ "k" ++ Nat.repr j ++ Nat.repr i
  , "intermediate_x" ++ Nat.repr j ++ Nat.repr i
  , "intermediate_y" ++ Nat.repr j ++ Nat.repr i
  , "intermediate_th" ++ Nat.repr j ++ Nat.repr i ]
  ++ (List.range nObs).map
      (fun o => "check_obs" ++ Nat.repr o ++ Nat.repr j ++ Nat.repr i)

/-- The names of the constraints registered for segment `i`, in
registration order. -/
def segmentNames (g nObs i : ℕ) : List String :=
  [ "v" ++ Nat.repr i, "k" ++ Nat.repr i, "t" ++ Nat.repr i ]
  ++ (List.range (g + 1)).flatMap (stepNames nObs i)
  ++ [ "x" ++ Nat.repr i, "y" ++ Nat.repr i, "theta" ++ Nat.repr i
     , "k" ++ Nat.repr i ]

/-- The full ordered list of constraint names registered by one
`prep_constraints` run with `n` waypoints, granularity `g` and `nObs`
obstacles. -/
def constraintNames (n g nObs : ℕ) : List String :=
  [ "x0", "y0", "th0", "xn", "yn", "thn" ]
  ++ (List.range' 1 (n - 1)).flatMap (segmentNames g nObs)
  ++ [ "time_sum" ]

/-- Modelled from the spec: registering a constraint under a name that is
already present is a fatal `DuplicateNameError` (never silently
overwritten); `none` stands for the raised error. -/
def register (acc : Option (List String)) (n : String) : Option (List String) :=
  match acc with
  | none => none
  | some l => if n ∈ l then none else some (l ++ [n])

/-- Registering a whole list of names in order under the spec's
duplicate-rejecting registry. -/
def registerAll (ns : List String) : Option (List String) :=
  ns.foldl register (some [])

noncomputable section

/-- Follows the claim's words, for comparison with the code: the forward
simulation of a segment using exactly `granularity` equal Euler sub-steps
of duration `t_i/granularity` from waypoint `i-1`'s state with waypoint
`i`'s controls held constant. -/
def claimSimEnd (g : ℕ) (vals : Vals) (i : ℕ) : SimState :=
  (fun st => eulerSub st (vals i).s (vals i).v (segDt g vals i))^[g]
    (simInit vals i)

/-- Follows the claim's words, for comparison with the code: one pose
advance of the initial-guess walk using the constraint-phase Euler update
under the constant `(k, v_cruise)` model (no `sign` factors). -/
def claimGuessStep (p : CarPlanner) (kd dt : ℝ) (st : ℝ × ℝ × ℝ) :
    ℝ × ℝ × ℝ :=
  (st.1 + p.v * Real.cos st.2.2 * dt,
   st.2.1 + p.v * Real.sin st.2.2 * dt,
   st.2.2 + kd * p.v * dt)

/-- Follows the claim's words, for comparison with the code: the very first
waypoint is emitted at the literal initial pose, and each subsequent pose
is its predecessor advanced by one constraint-phase Euler update; branch
selection, `r`, `distance` and `dt` exactly as the claim states them. -/
def claimInitialGuess (p : CarPlanner) (initS finalS : State) : List ℝ :=
  let dx := finalS.x - initS.x
  let dy := finalS.y - initS.y
  let slope := dy / dx
  let r := Real.sqrt (dx ^ 2 + dy ^ 2) * 0.5
  let kdist := if |slope| < 1e-2 then ((0 : ℝ), r) else (p.v / r, r * Real.pi)
  let t := kdist.2 / p.v
  let dt := t / (p.number_of_waypoints : ℝ)
  (List.range p.number_of_waypoints).flatMap fun m =>
    guessRow p kdist.1 dt
      ((claimGuessStep p kdist.1 dt)^[m] (initS.x, initS.y, initS.theta))

/-- A concrete robot: every capability parameter equal to `1`. -/
def exRobot : RobotParams := ⟨1, 1, 1, 1, 1⟩

/-- A concrete planner: `number_of_waypoints = 2`, `granularity = 1`,
`t_max = 40`. -/
def exP : CarPlanner := ⟨exRobot, 2, 1, 40⟩

/-- The concrete initial state `State(0, 0, 0)` of the repository's own
demo script. -/
def exInit : State := ⟨0, 0, 0⟩

/-- The concrete final state `State(-2, 0, 0)` of the repository's own
demo script. -/
def exFinal : State := ⟨-2, 0, 0⟩

/-- The constraints registered by `prep_constraints` on the concrete
scenario (no obstacles). -/
def exCs : List Constraint := prepConstraints exP exInit exFinal []

/-- A concrete assignment: waypoint `0` at the origin at rest, waypoint `1`
at `x = 1` with controls `s = 0, v = 1` and duration `t = 1`. -/
def exVals : Vals := fun m =>
  if m = 0 then ⟨0, 0, 0, 0, 0, 0, 0⟩ else ⟨1, 0, 0, 0, 0, 1, 1⟩

end

lemma stepConstraints_names (p : CarPlanner) (obstacles : List Obstacle)
    (i j : ℕ) :
    (stepConstraints p obstacles i j).map Constraint.name
      = stepNames obstacles.length i j := by
  simp [stepConstraints, stepNames, obstacleConstraints, List.map_map,
    Function.comp_def]

lemma segmentConstraints_names (p : CarPlanner) (obstacles : List Obstacle)
    (i : ℕ) :
    (segmentConstraints p obstacles i).map Constraint.name
      = segmentNames p.granularity obstacles.length i := by
  simp [segmentConstraints, segmentNames, List.map_flatMap,
    stepConstraints_names]

lemma prep_names (p : CarPlanner) (initS finalS : State)
    (obstacles : List Obstacle) :
    (prepConstraints p initS finalS obstacles).map Constraint.name
      = constraintNames p.number_of_waypoints p.granularity obstacles.length := by
  simp [prepConstraints, constraintNames, boundaryConstraints,
    timeSumConstraint, List.map_flatMap, segmentConstraints_names]

lemma mem_seg_range (i n : ℕ) : i ∈ List.range' 1 (n - 1) ↔ 1 ≤ i ∧ i < n := by
  rw [List.mem_range']
  constructor
  · rintro ⟨k, hk, rfl⟩
    omega
  · rintro ⟨h1, h2⟩
    exact ⟨i - 1, by omega, by omega⟩

lemma mem_prep_iff {c : Constraint} {p : CarPlanner} {initS finalS : State}
    {obstacles : List Obstacle} :
    c ∈ prepConstraints p initS finalS obstacles ↔
      c ∈ boundaryConstraints p.number_of_waypoints initS finalS
      ∨ (∃ i, 1 ≤ i ∧ i < p.number_of_waypoints
          ∧ c ∈ segmentConstraints p obstacles i)
      ∨ c = timeSumConstraint p := by
  simp only [prepConstraints, List.mem_append, List.mem_flatMap,
    List.mem_singleton]
  constructor
  · rintro ((h | ⟨i, hi, hc⟩) | h)
    · exact Or.inl h
    · exact Or.inr (Or.inl
        ⟨i, ((mem_seg_range i _).1 hi).1, ((mem_seg_range i _).1 hi).2, hc⟩)
    · exact Or.inr (Or.inr h)
  · rintro (h | ⟨i, h1, h2, hc⟩ | h)
    · exact Or.inl (Or.inl h)
    · exact Or.inl (Or.inr ⟨i, (mem_seg_range i _).2 ⟨h1, h2⟩, hc⟩)
    · exact Or.inr h

lemma mem_prep_of_seg {c : Constraint} {p : CarPlanner} (initS finalS : State)
    (obstacles : List Obstacle) {i : ℕ}
    (h1 : 1 ≤ i) (h2 : i < p.number_of_waypoints)
    (hc : c ∈ segmentConstraints p obstacles i) :
    c ∈ prepConstraints p initS finalS obstacles :=
  mem_prep_iff.2 (Or.inr (Or.inl ⟨i, h1, h2, hc⟩))

lemma simAfter_eq_iterate (g : ℕ) (vals : Vals) (i j : ℕ) :
    simAfter g vals i j
      = (fun st => eulerSub st (vals i).s (vals i).v (segDt g vals i))^[j]
          (simInit vals i) := by
  induction j with
  | zero => rfl
  | succ j ih =>
    rw [Function.iterate_succ_apply', ← ih]
    rfl

lemma guessLoop_false (p : CarPlanner) (dx dy kd dt : ℝ) (n : ℕ)
    (st : ℝ × ℝ × ℝ) :
    guessLoop p dx dy kd dt n st false
      = (List.range n).flatMap
          (fun m => guessRow p kd dt ((guessStep p dx dy kd dt)^[m] st)) := by
  induction n generalizing st with
  | zero => rfl
  | succ n ih =>
    rw [guessLoop, if_neg (by simp), ih (guessStep p dx dy kd dt st),
      List.range_succ_eq_map, List.flatMap_cons, List.flatMap_map]
    simp [Function.iterate_succ_apply]

lemma guessLoop_closed (p : CarPlanner) (dx dy kd dt : ℝ) (n : ℕ)
    (st : ℝ × ℝ × ℝ) :
    guessLoop p dx dy kd dt (n + 1) st true
      = (List.range (n + 1)).flatMap
          (fun m => guessRow p kd dt ((guessStep p dx dy kd dt)^[m - 1] st)) := by
  rw [guessLoop, if_pos rfl, guessLoop_false, List.range_succ_eq_map,
    List.flatMap_cons, List.flatMap_map]
  simp

lemma sqrt_four : Real.sqrt 4 = 2 := by
  rw [show (4 : ℝ) = 2 ^ 2 by norm_num]
  exact Real.sqrt_sq (by norm_num)

/-- The initial-guess vector of the concrete scenario: both waypoints sit
at the literal initial pose, with `dt = 1.25` and `v = 0.4`. -/
def exGuess : List ℝ :=
  [0, 0, 0, 0, 1.25, 0.4, 0, 0, 0, 0, 0, 1.25, 0.4, 0]

lemma exGuess_eq : initialGuess exP exInit exFinal = some exGuess := by
  rw [initialGuess]
  simp only [exP, exInit, exFinal, exRobot, CarPlanner.v]
  rw [if_neg (by norm_num)]
  rw [show ((-2 : ℝ) - 0) ^ 2 + ((0 : ℝ) - 0) ^ 2 = 4 by norm_num, sqrt_four]
  rw [if_pos (by norm_num)]
  simp only [guessLoop, guessRow, if_pos rfl]
  norm_num [exGuess, CarPlanner.v]

lemma claimGuess_eval :
    claimInitialGuess exP exInit exFinal
      = [0, 0, 0, 0, 1.25, 0.4, 0, 0.5, 0, 0, 0, 1.25, 0.4, 0] := by
  rw [claimInitialGuess]
  simp only [exP, exInit, exFinal, exRobot, CarPlanner.v]
  rw [show ((-2 : ℝ) - 0) ^ 2 + ((0 : ℝ) - 0) ^ 2 = 4 by norm_num, sqrt_four]
  rw [if_pos (by norm_num)]
  rw [show List.range 2 = [0, 1] from rfl]
  simp only [List.flatMap_cons, List.flatMap_nil, guessRow, claimGuessStep,
    Function.iterate_succ, Function.iterate_zero, Function.comp_apply, id_eq,
    List.append_nil]
  norm_num [CarPlanner.v]

lemma exCs_v1 :
    exCs.find? (fun c => c.name == "v1")
      = some { name := "v1", expr := fun vals => (vals 1).v
               lb := some 0, ub := some exP.v } := by
  rfl

lemma foldl_register_none (ns : List String) : ns.foldl register none = none := by
  induction ns with
  | nil => rfl
  | cons n ns ih => exact ih

lemma foldl_register_of_dup (ns : List String) :
    ∀ acc : List String, ¬ (acc ++ ns).Nodup → acc.Nodup →
      ns.foldl register (some acc) = none := by
  induction ns with
  | nil =>
    intro acc hdup hacc
    simp at hdup
    exact absurd hacc hdup
  | cons n ns ih =>
    intro acc hdup hacc
    rw [List.foldl_cons]
    by_cases hn : n ∈ acc
    · rw [show register (some acc) n = none by simp [register, hn]]
      exact foldl_register_none ns
    · rw [show register (some acc) n = some (acc ++ [n]) by simp [register, hn]]
      apply ih
      · rw [← List.append_cons]
        exact hdup
      · simp [List.nodup_append, hacc, hn]

lemma registerAll_none_of_dup {ns : List String} (h : ¬ ns.Nodup) :
    registerAll ns = none := by
  apply foldl_register_of_dup ns []
  · simpa using h
  · exact List.nodup_nil

lemma segmentNames_count_k (g nObs i : ℕ) :
    2 ≤ (segmentNames g nObs i).count ("k" ++ Nat.repr i) := by
  rw [segmentNames]
  rw [List.count_append, List.count_append]
  have h1 : 1 ≤ ([ "v" ++ Nat.repr i, "k" ++ Nat.repr i, "t" ++ Nat.repr i ]
      : List String).count ("k" ++ Nat.repr i) := by
    simp only [List.count_cons, List.count_nil, beq_iff_eq]
    split_ifs <;> omega
  have h2 : 1 ≤ ([ "x" ++ Nat.repr i, "y" ++ Nat.repr i, "theta" ++ Nat.repr i
      , "k" ++ Nat.repr i ] : List String).count ("k" ++ Nat.repr i) := by
    simp only [List.count_cons, List.count_nil, beq_iff_eq]
    split_ifs <;> omega
  omega

lemma constraintNames_count_k (n g nObs : ℕ) (h : 2 ≤ n) :
    2 ≤ (constraintNames n g nObs).count ("k" ++ Nat.repr 1) := by
  obtain ⟨s, t, hst⟩ :=
    List.append_of_mem ((mem_seg_range 1 n).2 ⟨le_refl 1, by omega⟩)
  rw [constraintNames, hst, List.flatMap_append, List.flatMap_cons]
  rw [List.count_append, List.count_append, List.count_append, List.count_append]
  have := segmentNames_count_k g nObs 1
  omega

noncomputable section

/-- The four G2 continuity equality constraints of segment `i`, as
registered after the sub-step loop: they equate waypoint `i`'s declared
`(x, y, theta, k)` with the simulated segment end state. -/
def contSim (p : CarPlanner) (i : ℕ) : List Constraint :=
  [ { name := "x" ++ Nat.repr i
      expr := fun vals =>
        (vals i).x - (simAfter p.granularity vals i (p.granularity + 1)).x
      lb := some 0, ub := some 0 }
  , { name := "y" ++ Nat.repr i
      expr := fun vals =>
        (vals i).y - (simAfter p.granularity vals i (p.granularity + 1)).y
      lb := some 0, ub := some 0 }
  , { name := "theta" ++ Nat.repr i
      expr := fun vals =>
        (vals i).theta - (simAfter p.granularity vals i (p.granularity + 1)).th
      lb := some 0, ub := some 0 }
  , { name := "k" ++ Nat.repr i
      expr := fun vals =>
        (vals i).k - (simAfter p.granularity vals i (p.granularity + 1)).k
      lb := some 0, ub := some 0 } ]

/-- The same four continuity constraints written with the Euler stepper
iterated explicitly `granularity + 1` times, starting from waypoint
`i-1`'s declared state, with waypoint `i`'s controls held constant and
sub-step duration `t_i * (1/granularity)`. -/
def contIter (p : CarPlanner) (i : ℕ) : List Constraint :=
  [ { name := "x" ++ Nat.repr i
      expr := fun vals =>
        (vals i).x -
          ((fun st => eulerSub st (vals i).s (vals i).v
              ((vals i).t * (1 / (p.granularity : ℝ))))^[p.granularity + 1]
            (⟨(vals (i-1)).k, (vals (i-1)).x, (vals (i-1)).y,
              (vals (i-1)).theta⟩ : SimState)).x
      lb := some 0, ub := some 0 }
  , { name := "y" ++ Nat.repr i
      expr := fun vals =>
        (vals i).y -
          ((fun st => eulerSub st (vals i).s (vals i).v
              ((vals i).t * (1 / (p.granularity : ℝ))))^[p.granularity + 1]
            (⟨(vals (i-1)).k, (vals (i-1)).x, (vals (i-1)).y,
              (vals (i-1)).theta⟩ : SimState)).y
      lb := some 0, ub := some 0 }
  , { name := "theta" ++ Nat.repr i
      expr := fun vals =>
        (vals i).theta -
          ((fun st => eulerSub st (vals i).s (vals i).v
              ((vals i).t * (1 / (p.granularity : ℝ))))^[p.granularity + 1]
            (⟨(vals (i-1)).k, (vals (i-1)).x, (vals (i-1)).y,
              (vals (i-1)).theta⟩ : SimState)).th
      lb := some 0, ub := some 0 }
  , { name := "k" ++ Nat.repr i
      expr := fun vals =>
        (vals i).k -
          ((fun st => eulerSub st (vals i).s (vals i).v
              ((vals i).t * (1 / (p.granularity : ℝ))))^[p.granularity + 1]
            (⟨(vals (i-1)).k, (vals (i-1)).x, (vals (i-1)).y,
              (vals (i-1)).theta⟩ : SimState)).k
      lb := some 0, ub := some 0 } ]

end

lemma contSim_eq_contIter (p : CarPlanner) (i : ℕ) :
    contSim p i = contIter p i := by
  have h : ∀ vals : Vals,
      simAfter p.granularity vals i (p.granularity + 1)
        = (fun st => eulerSub st (vals i).s (vals i).v
            ((vals i).t * (1 / (p.granularity : ℝ))))^[p.granularity + 1]
            (⟨(vals (i-1)).k, (vals (i-1)).x, (vals (i-1)).y,
              (vals (i-1)).theta⟩ : SimState) := by
    intro vals
    rw [simAfter_eq_iterate]
    rfl
  simp only [contSim, contIter, List.cons.injEq, and_true]
  refine ⟨?_, ?_, ?_, ?_⟩ <;>
    (congr 1; funext vals; rw [h vals])

lemma segment_decomp (p : CarPlanner) (obstacles : List Obstacle) (i : ℕ) :
    ∃ front, segmentConstraints p obstacles i = front ++ contSim p i := by
  refine ⟨([ { name := "v" ++ Nat.repr i
               expr := fun vals => (vals i).v
               lb := some 0, ub := some p.v }
           , { name := "k" ++ Nat.repr i
               expr := fun vals => (vals i).k
               lb := some (-p.k), ub := some p.k }
           , { name := "t" ++ Nat.repr i
               expr := fun vals => (vals i).t
               lb := some 0, ub := none } ]
          ++ (List.range (p.granularity + 1)).flatMap
              (stepConstraints p obstacles i)), ?_⟩
  simp [segmentConstraints, contSim, List.append_assoc]

lemma mem_prep_of_contSim {c : Constraint} {p : CarPlanner}
    (initS finalS : State) (obstacles : List Obstacle) {i : ℕ}
    (h1 : 1 ≤ i) (h2 : i < p.number_of_waypoints)
    (hc : c ∈ contSim p i) :
    c ∈ prepConstraints p initS finalS obstacles := by
  apply mem_prep_of_seg initS finalS obstacles h1 h2
  obtain ⟨front, hfront⟩ := segment_decomp p obstacles i
  rw [hfront]
  exact List.mem_append.2 (Or.inr hc)

lemma exCs_x1 :
    exCs.find? (fun c => c.name == "x1")
      = some { name := "x1"
               expr := fun vals => (vals 1).x - (simAfter 1 vals 1 2).x
               lb := some 0, ub := some 0 } := by
  rfl

lemma exVals_sim : simAfter 1 exVals 1 2 = ⟨(0 : ℝ), 2, 0, 0⟩ := by
  have h : simAfter 1 exVals 1 2
      = eulerSub (eulerSub (simInit exVals 1) (exVals 1).s (exVals 1).v
          (segDt 1 exVals 1)) (exVals 1).s (exVals 1).v (segDt 1 exVals 1) := rfl
  rw [h]
  norm_num [eulerSub, simInit, segDt, exVals, SimState.mk.injEq]

/-- Prepared-constraint membership statement for claim C1: segment `i`'s
constraint block ends with the four continuity equality constraints, and
those equate waypoint `i`'s declared state with the Euler stepper applied
`granularity + 1` times (sub-step duration `t_i * (1/granularity)`,
controls of waypoint `i` held constant) to waypoint `i-1`'s declared
state. -/
def C1Prop (p : CarPlanner) (initS finalS : State) (obstacles : List Obstacle)
    (i : ℕ) : Prop :=
  (∃ front, segmentConstraints p obstacles i = front ++ contIter p i)
  ∧ ∀ c ∈ contIter p i, c ∈ prepConstraints p initS finalS obstacles

/-- Claim C1 (corrected): for every segment index `i` in `1 .. N-1`,
`prep_constraints` builds the forward simulation of that segment starting
from waypoint `i-1`'s `(x, y, theta, k)` with waypoint `i`'s controls held
constant and sub-step duration `dt = t_i/granularity`, but using
`granularity + 1` (not `granularity`) equal Euler sub-steps, so the total
simulated duration is `t_i * (granularity + 1)/granularity`, not `t_i`. -/
theorem C1_continuity_uses_granularity_plus_one_substeps (p : CarPlanner)
    (initS finalS : State) (obstacles : List Obstacle) (i : ℕ)
    (h1 : 1 ≤ i) (h2 : i < p.number_of_waypoints) :
    C1Prop p initS finalS obstacles i := by
  obtain ⟨front, hfront⟩ := segment_decomp p obstacles i
  rw [contSim_eq_contIter] at hfront
  refine ⟨⟨front, hfront⟩, ?_⟩
  intro c hc
  rw [← contSim_eq_contIter] at hc
  exact mem_prep_of_contSim initS finalS obstacles h1 h2 hc

/-- Witness for claim C1's theorem at the concrete scenario. -/
theorem C1_witness :
    (1 ≤ 1 ∧ 1 < exP.number_of_waypoints)
    ∧ C1Prop exP exInit exFinal [] 1 :=
  ⟨⟨le_refl 1, by norm_num [exP]⟩,
   C1_continuity_uses_granularity_plus_one_substeps exP exInit exFinal [] 1
     (le_refl 1) (by norm_num [exP])⟩

/-- Counterexample for claim C1 as stated: on the concrete scenario the
unique registered continuity constraint named `x1` evaluates to `-1` at a
concrete assignment, whereas the claim's `granularity`-sub-step simulation
yields a zero residual at that same assignment, so the registered segment
simulation does not use exactly `granularity` sub-steps of total duration
`t_i`. -/
theorem C1_counterexample :
    (exCs.map Constraint.name).count "x1" = 1
    ∧ (exCs.find? (fun c => c.name == "x1")).map (fun c => c.expr exVals)
        = some (-1)
    ∧ (exVals 1).x - (claimSimEnd exP.granularity exVals 1).x = 0
    ∧ (-1 : ℝ) ≠ 0 := by
  refine ⟨?_, ?_, ?_, by norm_num⟩
  · show ((prepConstraints exP exInit exFinal []).map Constraint.name).count "x1" = 1
    rw [prep_names]
    decide
  · rw [exCs_x1]
    simp only [Option.map_some']
    rw [exVals_sim]
    norm_num [exVals]
  · have h : claimSimEnd exP.granularity exVals 1
        = eulerSub (simInit exVals 1) (exVals 1).s (exVals 1).v
            (segDt exP.granularity exVals 1) := by
      rw [claimSimEnd]
      rw [show exP.granularity = 1 from rfl]
      rw [Function.iterate_one]
    rw [h]
    norm_num [eulerSub, simInit, segDt, exVals, exP]

/-- Claim C2 (corrected): under the spec's registry semantics a duplicate
name is rejected with `DuplicateNameError`, but the names generated by one
`prep_constraints` run are not all distinct: for every `N ≥ 2` the
curvature box constraint and the curvature continuity equality of segment
`1` both carry the name `"k1"`, so registering the generated names under
the duplicate-rejecting registry necessarily fails. -/
theorem C2_duplicate_curvature_name (p : CarPlanner) (initS finalS : State)
    (obstacles : List Obstacle) (h : 2 ≤ p.number_of_waypoints) :
    (prepConstraints p initS finalS obstacles).map Constraint.name
        = constraintNames p.number_of_waypoints p.granularity obstacles.length
    ∧ 2 ≤ (constraintNames p.number_of_waypoints p.granularity
            obstacles.length).count ("k" ++ Nat.repr 1)
    ∧ registerAll (constraintNames p.number_of_waypoints p.granularity
        obstacles.length) = none := by
  refine ⟨prep_names p initS finalS obstacles,
    constraintNames_count_k _ _ _ h, ?_⟩
  apply registerAll_none_of_dup
  intro hnd
  have h1 := List.nodup_iff_count_le_one.1 hnd ("k" ++ Nat.repr 1)
  have h2 := constraintNames_count_k p.number_of_waypoints p.granularity
    obstacles.length h
  omega

/-- Witness for claim C2's theorem at the concrete scenario. -/
theorem C2_witness :
    2 ≤ exP.number_of_waypoints
    ∧ ((prepConstraints exP exInit exFinal []).map Constraint.name
        = constraintNames exP.number_of_waypoints exP.granularity
            ([] : List Obstacle).length
       ∧ 2 ≤ (constraintNames exP.number_of_waypoints exP.granularity
              ([] : List Obstacle).length).count ("k" ++ Nat.repr 1)
       ∧ registerAll (constraintNames exP.number_of_waypoints exP.granularity
            ([] : List Obstacle).length) = none) :=
  ⟨by norm_num [exP],
   C2_duplicate_curvature_name exP exInit exFinal [] (by norm_num [exP])⟩

/-- Counterexample for claim C2 as stated: already on the concrete
scenario (`N = 2`, `granularity = 1`, no obstacles) the constraint names
generated by one `prep_constraints` run are not pairwise distinct. -/
theorem C2_names_not_distinct :
    ¬ ((prepConstraints exP exInit exFinal []).map Constraint.name).Nodup := by
  rw [prep_names]
  decide

/-- Claim C3 (corrected): for every waypoint index `i` in `1 .. N-1`,
`prep_constraints` registers a box constraint bounding `v_i` to the
interval `[0, 0.4 * v_max]` — the planner's cruise velocity
`self.v = self.max_linear_velocity*0.4` — not to `[0, v_max]`. -/
theorem C3_velocity_box_uses_cruise_velocity (p : CarPlanner)
    (initS finalS : State) (obstacles : List Obstacle) (i : ℕ)
    (h1 : 1 ≤ i) (h2 : i < p.number_of_waypoints) :
    ({ name := "v" ++ Nat.repr i
       expr := fun vals => (vals i).v
       lb := some 0
       ub := some (p.robot.max_linear_velocity * 0.4) } : Constraint)
      ∈ prepConstraints p initS finalS obstacles := by
  apply mem_prep_of_seg initS finalS obstacles h1 h2
  show _ ∈ segmentConstraints p obstacles i
  simp only [segmentConstraints]
  exact List.mem_append_left _ (List.Mem.head _)

/-- Witness for claim C3's theorem at the concrete scenario. -/
theorem C3_witness :
    (1 ≤ 1 ∧ 1 < exP.number_of_waypoints)
    ∧ ({ name := "v" ++ Nat.repr 1
         expr := fun vals => (vals 1).v
         lb := some 0
         ub := some (exP.robot.max_linear_velocity * 0.4) } : Constraint)
        ∈ prepConstraints exP exInit exFinal [] :=
  ⟨⟨le_refl 1, by norm_num [exP]⟩,
   C3_velocity_box_uses_cruise_velocity exP exInit exFinal [] 1
     (le_refl 1) (by norm_num [exP])⟩

/-- Counterexample for claim C3 as stated: on the concrete scenario with
`v_max = 1`, the unique constraint named `v1` carries the upper bound
`0.4`, not the robot's maximum linear velocity `1`. -/
theorem C3_velocity_bound_not_vmax :
    (exCs.map Constraint.name).count "v1" = 1
    ∧ (exCs.find? (fun c => c.name == "v1")).map Constraint.ub
        = some (some exP.v)
    ∧ exP.v = 0.4
    ∧ exP.robot.max_linear_velocity = 1
    ∧ (0.4 : ℝ) ≠ 1 := by
  refine ⟨?_, ?_, ?_, ?_, by norm_num⟩
  · show ((prepConstraints exP exInit exFinal []).map Constraint.name).count "v1" = 1
    rw [prep_names]
    decide
  · rw [exCs_v1]
    rfl
  · norm_num [CarPlanner.v, exP, exRobot]
  · norm_num [exP, exRobot]

/-- Claim C4 (code bug): `initial_guess` computes `slope = dy/dx` without
any special case, so the degenerate geometry `dx = 0` is a division fault
(`ZeroDivisionError`), modelled as `none`; the claim's guarded arc branch
is absent from the code. -/
theorem C4_zero_dx_division_fault :
    initialGuess exP ⟨0, 0, 0⟩ ⟨0, 5, 0⟩ = none := by
  simp [initialGuess]

/-- Within-sub-step Euler update order and G2 block statement for claim
C5: the curvature is advanced first and used for the heading advance, the
position advances read the pre-update heading, and segment `i`'s block
ends with exactly the four continuity equality constraints equating
waypoint `i`'s declared `(x, y, theta, k)` with the simulated end state. -/
def C5Prop (p : CarPlanner) (initS finalS : State) (obstacles : List Obstacle)
    (i : ℕ) : Prop :=
  (∀ (st : SimState) (s v dt : ℝ),
      eulerSub st s v dt
        = ⟨st.k + s * dt,
           st.x + v * Real.cos st.th * dt,
           st.y + v * Real.sin st.th * dt,
           st.th + (st.k + s * dt) * v * dt⟩)
  ∧ (∃ front, segmentConstraints p obstacles i = front ++ contSim p i)
  ∧ ∀ c ∈ contSim p i, c ∈ prepConstraints p initS finalS obstacles

/-- Claim C5 (confirmed): within each sub-step the Euler updates are
applied in the order `k, x, y, theta`, with the heading update reading the
already-advanced curvature and the position updates reading the pre-update
heading, and after the sub-step loop `prep_constraints` registers exactly
four equality constraints (`lb = ub = 0`) equating waypoint `i`'s declared
`(x, y, theta, k)` with the simulated end state, for every segment `i`
from `1` to `N-1`. -/
theorem C5_euler_order_and_continuity_block (p : CarPlanner)
    (initS finalS : State) (obstacles : List Obstacle) (i : ℕ)
    (h1 : 1 ≤ i) (h2 : i < p.number_of_waypoints) :
    C5Prop p initS finalS obstacles i :=
  ⟨fun _ _ _ _ => rfl,
   segment_decomp p obstacles i,
   fun _ hc => mem_prep_of_contSim initS finalS obstacles h1 h2 hc⟩

/-- Witness for claim C5's theorem at the concrete scenario. -/
theorem C5_witness :
    (1 ≤ 1 ∧ 1 < exP.number_of_waypoints)
    ∧ C5Prop exP exInit exFinal [] 1 :=
  ⟨⟨le_refl 1, by norm_num [exP]⟩,
   C5_euler_order_and_continuity_block exP exInit exFinal [] 1
     (le_refl 1) (by norm_num [exP])⟩

/-- Closed form of the emitted initial-guess vector for claim C6: the
waypoint at position `m` carries the pose advanced by `m - 1` (truncated
subtraction, so positions `0` and `1` both carry the literal initial pose)
sign-adjusted Euler updates, together with `0, dt, v_cruise, k`. -/
def C6Prop (p : CarPlanner) (initS finalS : State) : Prop :=
  let dx := finalS.x - initS.x
  let dy := finalS.y - initS.y
  let slope := dy / dx
  let r := Real.sqrt (dx ^ 2 + dy ^ 2) * 0.5
  let kdist := if |slope| < 1e-2 then ((0 : ℝ), r) else (p.v / r, r * Real.pi)
  let dt := kdist.2 / p.v / (p.number_of_waypoints : ℝ)
  initialGuess p initS finalS
    = some ((List.range p.number_of_waypoints).flatMap fun m =>
        guessRow p kdist.1 dt
          ((guessStep p dx dy kdist.1 dt)^[m - 1]
            (initS.x, initS.y, initS.theta)))

/-- Claim C6 (corrected): when `Δx ≠ 0` (otherwise a division fault) and
`N ≥ 1`, `initial_guess` returns the flat concatenation, in waypoint
order, of the per-waypoint 7-tuples `(x, y, theta, 0, dt, v_cruise, k)`
with the branch selection and `dt` exactly as claimed, but the walk
differs from the claimed one: waypoint `1` repeats the literal initial
pose (waypoint `m` receives `m - 1` updates, not `m`), and the position
updates carry `sign(Δx)`, `sign(Δy)` factors absent from the constraint
phase. -/
theorem C6_guess_closed_form (p : CarPlanner) (initS finalS : State)
    (hdx : finalS.x - initS.x ≠ 0) (hn : 1 ≤ p.number_of_waypoints) :
    C6Prop p initS finalS := by
  obtain ⟨n, hN⟩ : ∃ n, p.number_of_waypoints = n + 1 :=
    ⟨p.number_of_waypoints - 1, by omega⟩
  simp only [C6Prop, initialGuess]
  rw [if_neg hdx, hN, guessLoop_closed]

/-- Witness for claim C6's theorem at the concrete scenario. -/
theorem C6_witness :
    (exFinal.x - exInit.x ≠ 0 ∧ 1 ≤ exP.number_of_waypoints)
    ∧ C6Prop exP exInit exFinal :=
  ⟨⟨by norm_num [exFinal, exInit], by norm_num [exP]⟩,
   C6_guess_closed_form exP exInit exFinal
     (by norm_num [exFinal, exInit]) (by norm_num [exP])⟩

/-- Counterexample for claim C6 as stated: on the concrete scenario the
guess's second emitted waypoint has `x = 0` (the initial pose repeated),
whereas the claim's walk — the constraint-phase Euler update applied once
per subsequent waypoint — puts the second waypoint at `x = 0.5`. -/
theorem C6_second_waypoint_not_advanced :
    (initialGuess exP exInit exFinal).map (fun l => l.getD 7 0) = some 0
    ∧ (claimInitialGuess exP exInit exFinal).getD 7 0 = 0.5
    ∧ (0 : ℝ) ≠ 0.5 := by
  refine ⟨?_, ?_, by norm_num⟩
  · rw [exGuess_eq]
    norm_num [exGuess]
  · rw [claimGuess_eval]
    norm_num

/-- A concrete obstacle `(0, 0, 1, 1)`. -/
def exObs : Obstacle := ⟨0, 0, 1, 1⟩

/-- Obstacle-constraint statement for claim C7: the inequality registered
for obstacle `oi` at sub-step `j` of segment `i`, plus the boundary
characterization of the clearance expression. -/
def C7Prop (p : CarPlanner) (initS finalS : State) (obstacles : List Obstacle)
    (oi i j : ℕ) : Prop :=
  ({ name := "check_obs" ++ Nat.repr oi ++ Nat.repr j ++ Nat.repr i
     expr := fun vals =>
       obstacleExpr (obstacles.getD oi ⟨0, 0, 0, 0⟩)
         (simAfter p.granularity vals i (j+1)).x
         (simAfter p.granularity vals i (j+1)).y
     lb := some 0
     ub := none } : Constraint) ∈ prepConstraints p initS finalS obstacles
  ∧ ∀ (o : Obstacle) (x y : ℝ),
      (obstacleExpr o x y = 0
        ↔ (o.cx - x) ^ 2 + (o.cy - y) ^ 2 = (o.r + o.inflation) ^ 2)
      ∧ ((o.cx - x) ^ 2 + (o.cy - y) ^ 2 < (o.r + o.inflation) ^ 2
          → obstacleExpr o x y < 0)

/-- Claim C7 (confirmed): at every sub-step of every segment and for every
obstacle, `prep_constraints` registers the inequality
`(cx - x)^2 + (cy - y)^2 - (r + inflate)^2` with lower bound `0` and no
upper bound at the running simulated point, and that expression vanishes
exactly on the inflated boundary and is negative strictly inside it. -/
theorem C7_obstacle_clearance_registered (p : CarPlanner)
    (initS finalS : State) (obstacles : List Obstacle) (oi i j : ℕ)
    (h1 : 1 ≤ i) (h2 : i < p.number_of_waypoints)
    (h3 : j < p.granularity + 1) (h4 : oi < obstacles.length) :
    C7Prop p initS finalS obstacles oi i j := by
  constructor
  · apply mem_prep_of_seg initS finalS obstacles h1 h2
    show _ ∈ segmentConstraints p obstacles i
    simp only [segmentConstraints]
    refine List.mem_append.2 (Or.inl (List.mem_append.2 (Or.inr ?_)))
    refine List.mem_flatMap.2 ⟨j, List.mem_range.2 h3, ?_⟩
    simp only [stepConstraints]
    refine List.mem_append.2 (Or.inr ?_)
    simp only [obstacleConstraints]
    exact List.mem_map.2 ⟨oi, List.mem_range.2 h4, rfl⟩
  · intro o x y
    constructor
    · simp [obstacleExpr, sub_eq_zero]
    · intro hlt
      simp only [obstacleExpr]
      linarith

/-- Witness for claim C7's theorem at the concrete scenario with one
obstacle. -/
theorem C7_witness :
    (1 ≤ 1 ∧ 1 < exP.number_of_waypoints ∧ 0 < exP.granularity + 1
      ∧ 0 < ([exObs] : List Obstacle).length)
    ∧ C7Prop exP exInit exFinal [exObs] 0 1 0 :=
  ⟨⟨le_refl 1, by norm_num [exP], by norm_num, by norm_num⟩,
   C7_obstacle_clearance_registered exP exInit exFinal [exObs] 0 1 0
     (le_refl 1) (by norm_num [exP]) (by norm_num [exP]) (by norm_num)⟩

lemma satisfiedAt_of_eq (n : String) (f : Vals → ℝ) (t : ℝ) (vals : Vals)
    (h : f vals = t) :
    satisfiedAt { name := n, expr := f, lb := some t, ub := some t } vals := by
  constructor
  · intro r hr
    injection hr with hr
    subst hr
    exact le_of_eq h.symm
  · intro r hr
    injection hr with hr
    subst hr
    exact le_of_eq h

lemma exCs_xn :
    exCs.find? (fun c => c.name == "xn")
      = some { name := "xn", expr := fun vals => (vals 1).x
               lb := some (-2), ub := some (-2) } := by
  rfl

/-- Boundary structure statement for claim C8: the registered constraints
begin with the six boundary equalities pinning first and last poses; every
boundary expression is unchanged when waypoint `0`'s entries other than
`(x, y, theta)` are replaced arbitrarily; and at the initial-guess vector
the three initial-waypoint equalities hold exactly. -/
def C8Prop (p : CarPlanner) (initS finalS : State)
    (obstacles : List Obstacle) : Prop :=
  (∃ rest, prepConstraints p initS finalS obstacles
      = boundaryConstraints p.number_of_waypoints initS finalS ++ rest)
  ∧ (∀ c ∈ boundaryConstraints p.number_of_waypoints initS finalS,
      ∀ (vals : Vals) (w : Wp), w.x = (vals 0).x → w.y = (vals 0).y →
        w.theta = (vals 0).theta →
        c.expr (fun m => if m = 0 then w else vals m) = c.expr vals)
  ∧ ∀ l, initialGuess p initS finalS = some l →
      (satisfiedAt { name := "x0", expr := fun vals => (vals 0).x
                     lb := some initS.x, ub := some initS.x } (assignOfList l)
       ∧ satisfiedAt { name := "y0", expr := fun vals => (vals 0).y
                       lb := some initS.y, ub := some initS.y } (assignOfList l)
       ∧ satisfiedAt { name := "th0", expr := fun vals => (vals 0).theta
                       lb := some initS.theta, ub := some initS.theta }
           (assignOfList l))

/-- Claim C8 (corrected): the first waypoint's `(x, y, theta)` are pinned
by three equality constraints to the initial state and the last
waypoint's by three to the final state, no boundary constraint reads the
first waypoint's curvature or controls, and at the initial-guess vector
the three initial-waypoint equalities are satisfied exactly — but not, in
general, the final-waypoint ones. -/
theorem C8_boundary_pins_and_initial_guess (p : CarPlanner)
    (initS finalS : State) (obstacles : List Obstacle)
    (h1 : 1 ≤ p.number_of_waypoints) :
    C8Prop p initS finalS obstacles := by
  refine ⟨⟨_, rfl⟩, ?_, ?_⟩
  · intro c hc vals w hwx hwy hwth
    have hlast : ∀ sel : Wp → ℝ,
        sel w = sel (vals 0) →
        sel ((fun m => if m = 0 then w else vals m)
            (p.number_of_waypoints - 1))
          = sel (vals (p.number_of_waypoints - 1)) := by
      intro sel hsel
      by_cases h0 : p.number_of_waypoints - 1 = 0
      · rw [h0]
        simpa using hsel
      · simp [h0]
    simp only [boundaryConstraints, List.mem_cons, List.not_mem_nil,
      or_false] at hc
    rcases hc with rfl | rfl | rfl | rfl | rfl | rfl
    · simpa using hwx
    · simpa using hwy
    · simpa using hwth
    · exact hlast (fun u => u.x) hwx
    · exact hlast (fun u => u.y) hwy
    · exact hlast (fun u => u.theta) hwth
  · intro l hl
    by_cases hdx : finalS.x - initS.x = 0
    · rw [initialGuess, if_pos hdx] at hl
      exact absurd hl (by simp)
    · rw [initialGuess, if_neg hdx] at hl
      obtain ⟨n, hN⟩ : ∃ n, p.number_of_waypoints = n + 1 :=
        ⟨p.number_of_waypoints - 1, by omega⟩
      rw [hN] at hl
      injection hl with hl
      have hx : l.getD 0 0 = initS.x := by
        rw [← hl, guessLoop]
        simp [guessRow]
      have hy : l.getD 1 0 = initS.y := by
        rw [← hl, guessLoop]
        simp [guessRow]
      have hth : l.getD 2 0 = initS.theta := by
        rw [← hl, guessLoop]
        simp [guessRow]
      refine ⟨satisfiedAt_of_eq _ _ _ _ ?_, satisfiedAt_of_eq _ _ _ _ ?_,
        satisfiedAt_of_eq _ _ _ _ ?_⟩
      · simpa [assignOfList] using hx
      · simpa [assignOfList] using hy
      · simpa [assignOfList] using hth

/-- Witness for claim C8's theorem at the concrete scenario. -/
theorem C8_witness :
    1 ≤ exP.number_of_waypoints ∧ C8Prop exP exInit exFinal [] :=
  ⟨by norm_num [exP],
   C8_boundary_pins_and_initial_guess exP exInit exFinal []
     (by norm_num [exP])⟩

/-- Counterexample for claim C8 as stated: on the concrete scenario the
final-waypoint boundary equality `xn` is violated at the initial-guess
vector — the guess's last waypoint sits at `x = 0` while the equality
requires `-2`. -/
theorem C8_final_boundary_violated_at_guess :
    initialGuess exP exInit exFinal = some exGuess
    ∧ exCs.find? (fun c => c.name == "xn")
        = some { name := "xn", expr := fun vals => (vals 1).x
                 lb := some (-2), ub := some (-2) }
    ∧ ¬ satisfiedAt { name := "xn", expr := fun vals => (vals 1).x
                      lb := some (-2), ub := some (-2) }
        (assignOfList exGuess) := by
  refine ⟨exGuess_eq, exCs_xn, ?_⟩
  intro hsat
  have h := hsat.2 (-2) rfl
  norm_num [assignOfList, exGuess] at h

/-- Agreement of two assignments on every waypoint's position entries. -/
def xyAgree (vals vals' : Vals) : Prop :=
  ∀ m, (vals m).x = (vals' m).x ∧ (vals m).y = (vals' m).y

/-- Objective characterization for claim C9: the objective is exactly the
sum of squared position distances of consecutive waypoints, and it is
unchanged by arbitrary modification of every non-position entry (in
particular of the headings whose delta the helper computes and drops). -/
def C9Prop (p : CarPlanner) (vals vals' : Vals) : Prop :=
  objective p vals
    = ∑ i ∈ Finset.Ico 1 p.number_of_waypoints,
        (((vals i).x - (vals (i-1)).x) ^ 2 + ((vals i).y - (vals (i-1)).y) ^ 2)
  ∧ objective p vals = objective p vals'

/-- Claim C9 (confirmed): `objective` returns the sum over `i` of
`(x_i - x_{i-1})^2 + (y_i - y_{i-1})^2` only; the heading delta computed
inside the per-pair helper does not contribute to the returned value. -/
theorem C9_objective_squared_euclidean_only (p : CarPlanner)
    (vals vals' : Vals) (h : xyAgree vals vals') :
    C9Prop p vals vals' := by
  constructor
  · refine Finset.sum_congr rfl fun i _ => ?_
    simp only [length]
    ring
  · refine Finset.sum_congr rfl fun i _ => ?_
    simp only [length]
    rw [(h i).1, (h i).2, (h (i-1)).1, (h (i-1)).2]

/-- An assignment agreeing with `exVals` on positions but with every other
entry replaced by `9`. -/
def exValsB : Vals := fun m => ⟨(exVals m).x, (exVals m).y, 9, 9, 9, 9, 9⟩

/-- Witness for claim C9's theorem at the concrete scenario. -/
theorem C9_witness : xyAgree exVals exValsB ∧ C9Prop exP exVals exValsB :=
  ⟨fun _ => ⟨rfl, rfl⟩,
   C9_objective_squared_euclidean_only exP exVals exValsB
     (fun _ => ⟨rfl, rfl⟩)⟩

/-- Two assignments that agree everywhere except possibly on waypoint
`0`'s controls `s, v` and duration `t`: waypoint `0`'s `(x, y, theta, k)`
agree and every other waypoint agrees entirely. -/
def startCtrlAgree (vals vals' : Vals) : Prop :=
  (vals 0).x = (vals' 0).x ∧ (vals 0).y = (vals' 0).y
  ∧ (vals 0).theta = (vals' 0).theta ∧ (vals 0).k = (vals' 0).k
  ∧ ∀ m, 1 ≤ m → vals m = vals' m

lemma pose_eq_of_agree {vals vals' : Vals} (h : startCtrlAgree vals vals') :
    ∀ m, (vals m).x = (vals' m).x ∧ (vals m).y = (vals' m).y
      ∧ (vals m).theta = (vals' m).theta ∧ (vals m).k = (vals' m).k := by
  intro m
  by_cases hm : m = 0
  · subst hm
    exact ⟨h.1, h.2.1, h.2.2.1, h.2.2.2.1⟩
  · rw [h.2.2.2.2 m (by omega)]
    exact ⟨rfl, rfl, rfl, rfl⟩

lemma simAfter_agree {vals vals' : Vals} (h : startCtrlAgree vals vals')
    (g i : ℕ) (hi : 1 ≤ i) :
    ∀ j, simAfter g vals i j = simAfter g vals' i j := by
  intro j
  induction j with
  | zero =>
    show simInit vals i = simInit vals' i
    have hp := pose_eq_of_agree h (i - 1)
    simp only [simInit]
    rw [hp.1, hp.2.1, hp.2.2.1, hp.2.2.2]
  | succ j ih =>
    show eulerSub _ _ _ _ = eulerSub _ _ _ _
    rw [ih, h.2.2.2.2 i hi, segDt, segDt, h.2.2.2.2 i hi]

/-- Independence statement for claim C10: every registered constraint
expression and the objective take the same value on two assignments
related by `startCtrlAgree`. -/
def C10Prop (p : CarPlanner) (initS finalS : State)
    (obstacles : List Obstacle) (vals vals' : Vals) : Prop :=
  (∀ c ∈ prepConstraints p initS finalS obstacles,
    c.expr vals = c.expr vals')
  ∧ objective p vals = objective p vals'

/-- Claim C10 (confirmed): every constraint expression registered by
`prep_constraints` and the objective are independent of waypoint `0`'s
control variables `s_0, v_0` and duration `t_0`: two assignments that
differ only in those three scalars give identical values everywhere. -/
theorem C10_nlp_independent_of_first_controls (p : CarPlanner)
    (initS finalS : State) (obstacles : List Obstacle) (vals vals' : Vals)
    (h : startCtrlAgree vals vals') :
    C10Prop p initS finalS obstacles vals vals' := by
  have hp := pose_eq_of_agree h
  have hrest := h.2.2.2.2
  constructor
  · intro c hc
    rcases mem_prep_iff.1 hc with hb | ⟨i, h1, h2, hs⟩ | ht
    · simp only [boundaryConstraints, List.mem_cons, List.not_mem_nil,
        or_false] at hb
      rcases hb with rfl | rfl | rfl | rfl | rfl | rfl
      · exact (hp 0).1
      · exact (hp 0).2.1
      · exact (hp 0).2.2.1
      · exact (hp _).1
      · exact (hp _).2.1
      · exact (hp _).2.2.1
    · have hsim := simAfter_agree h p.granularity i h1
      have hi := hrest i h1
      simp only [segmentConstraints, List.mem_append, List.mem_cons,
        List.not_mem_nil, or_false, List.mem_flatMap] at hs
      rcases hs with ((rfl | rfl | rfl) | ⟨j, _, hstep⟩) | hcont
      · simp only [hi]
      · simp only [hi]
      · simp only [hi]
      · simp only [stepConstraints, obstacleConstraints, List.mem_append,
          List.mem_cons, List.not_mem_nil, or_false, List.mem_map,
          List.mem_range] at hstep
        rcases hstep with (rfl | rfl | rfl | rfl) | ⟨o, _, rfl⟩ <;>
          simp only [hsim]
      · rcases hcont with rfl | rfl | rfl | rfl <;>
          simp only [hsim, hi]
    · subst ht
      simp only [timeSumConstraint]
      refine Finset.sum_congr rfl fun i hi => ?_
      rw [hrest i (Finset.mem_Ico.1 hi).1]
  · refine Finset.sum_congr rfl fun i hi => ?_
    have h1 : 1 ≤ i := (Finset.mem_Ico.1 hi).1
    simp only [length]
    rw [(hp i).1, (hp i).2.1, (hp (i-1)).1, (hp (i-1)).2.1]

/-- An assignment differing from `exVals` exactly in waypoint `0`'s
controls and duration. -/
def exValsC : Vals := fun m =>
  if m = 0 then ⟨0, 0, 0, 0, 9, 9, 9⟩ else exVals m

/-- Witness for claim C10's theorem at the concrete scenario. -/
theorem C10_witness :
    startCtrlAgree exVals exValsC
    ∧ C10Prop exP exInit exFinal [] exVals exValsC := by
  have hag : startCtrlAgree exVals exValsC := by
    refine ⟨rfl, rfl, rfl, rfl, ?_⟩
    intro m hm
    have hm0 : ¬ (m = 0) := by omega
    simp [exVals, exValsC, hm0]
  exact ⟨hag,
    C10_nlp_independent_of_first_controls exP exInit exFinal [] exVals
      exValsC hag⟩

end Optrol
